import Mathlib

/-!
Shallow embedding of `bindbutton.cc`: an X11 utility that binds mouse
buttons to shell commands.  The embedding models the pure data flow of the
program — argument parsing, event classification (`Event::get`), the merge
step (`Event::combine`), the per-event handler (`Event::handle`) and the
startup grab phase (`grab_buttons`) — with X server calls reified as an
explicit list of `Effect`s, and the mutable per-device held-button sets
(`XiDevice::status`, a `std::set<unsigned int>`) modelled as a map from
device index to a `Finset ℕ`, following the arena+index device-reference
design.
-/

namespace BindButton

/-- Exit code `EXIT_SUCCESS` (0). -/
def EXIT_SUCCESS : Nat := 0

/-- Exit code `EXIT_FAILURE` (1). -/
def EXIT_FAILURE : Nat := 1

/-- `struct Commands { const char *press; const char *release; }`. -/
structure Commands where
  press : String
  release : String
deriving DecidableEq, Repr

/-- C whitespace characters skipped by `atoi` (`isspace`). -/
def isSpaceChar (c : Char) : Bool :=
  c = ' ' || c = '\t' || c = '\n' || c = '\x0b' || c = '\x0c' || c = '\x0d'

/-- Digit-prefix accumulation used by `atoi`. -/
def atoiDigits (acc : Int) : List Char → Int
  | [] => acc
  | c :: cs => if c.isDigit then atoiDigits (10 * acc + (c.toNat - 48)) cs else acc

/-- C `atoi`: skip leading whitespace, optional sign, then the longest
digit prefix; a string with no digit prefix yields 0. -/
def atoi (s : String) : Int :=
  match s.toList.dropWhile isSpaceChar with
  | '-' :: cs => - atoiDigits 0 cs
  | '+' :: cs => atoiDigits 0 cs
  | cs => atoiDigits 0 cs

/-- Conversion of a C `int` to `unsigned int` (the key type of the
`commands` map): reduction modulo 2^32. -/
def intToUInt (b : Int) : Nat := (b % (2 ^ 32 : Int)).toNat

/-- Assignment `m[k] = v` on a `std::map` modelled as an association list
with at most one entry per key: overwrite in place, or append. -/
def mapInsert (k : Nat) (v : Commands) : List (Nat × Commands) → List (Nat × Commands)
  | [] => [(k, v)]
  | (k', v') :: rest => if k' = k then (k, v) :: rest else (k', v') :: mapInsert k v rest

/-- Lookup `m.find(k)` on the association-list model of `std::map`. -/
def mapFind (k : Nat) : List (Nat × Commands) → Option Commands
  | [] => none
  | (k', v') :: rest => if k' = k then some v' else mapFind k rest

/-- Outcome of `parse_args`: either the usage message was printed and the
process exited with the given code, or parsing succeeded with the built
button→commands table. -/
inductive ParseResult where
  | usage (code : Nat)
  | ok (table : List (Nat × Commands))
deriving DecidableEq, Repr

/-- The `for` loop of `parse_args`, consuming the arguments after
`argv[0]` three at a time: button string, press command, release command.
A button string whose `atoi` value is 0 prints usage and exits with
`EXIT_FAILURE`; otherwise `commands[button] = cmds` and the loop
continues. -/
def parseLoop (table : List (Nat × Commands)) : List String → ParseResult
  | b :: p :: r :: rest =>
    if atoi b = 0 then ParseResult.usage EXIT_FAILURE
    else parseLoop (mapInsert (intToUInt (atoi b)) ⟨p, r⟩ table) rest
  | _ => ParseResult.ok table

/-- `parse_args(argc, argv)` with `argv` including the program name, so
`argc = argv.length`.  A malformed count (`argc % 3 != 1 || argc <= 3`)
prints usage and exits with `EXIT_SUCCESS`. -/
def parse_args (argv : List String) : ParseResult :=
  if argv.length % 3 ≠ 1 ∨ argv.length ≤ 3 then ParseResult.usage EXIT_SUCCESS
  else parseLoop [] argv.tail

/-- The `atoi` values of the button positions (every third argument after
`argv[0]`) of an argument tail. -/
def buttonArgs : List String → List Int
  | b :: _ :: _ :: rest => atoi b :: buttonArgs rest
  | _ => []

/-- The (button key, commands) bindings described by an argument tail, in
order, duplicates retained. -/
def tripleBindings : List String → List (Nat × Commands)
  | b :: p :: r :: rest => (intToUInt (atoi b), ⟨p, r⟩) :: tripleBindings rest
  | _ => []

/-- Spec-side lookup used only to compare against the built table: the
command pair of the LAST binding for a given button key (later triples
overwrite earlier ones). -/
def lastLookup (b : Nat) : List (Nat × Commands) → Option Commands
  | [] => none
  | (k, v) :: rest =>
    match lastLookup b rest with
    | some w => some w
    | none => if k = b then some v else none

/-- Immutable part of `struct XiDevice`: the press / release event types
registered for the device and its button count.  The mutable `status` set
lives in the system state, keyed by device index. -/
structure XiDevice where
  press : Nat
  release : Nat
  num_buttons : Nat
deriving DecidableEq, Repr

/-- Second argument of `XAllowEvents`. -/
inductive AllowMode where
  | asyncBoth
  | replayPointer
deriving DecidableEq, Repr

/-- X server calls issued by the program, reified. -/
inductive Effect where
  | fakeButton (button : Nat) (pressed : Bool)
  | allowEvents (mode : AllowMode) (t : Nat)
  | runCmd (cmd : String)
  | grabDevice (d : Nat)
  | ungrabDevice (d : Nat)
  | grabButton (button : Nat)
  | grabDeviceButton (d : Nat) (button : Nat)
deriving DecidableEq, Repr

/-- `struct Event`; `dev` is the index of the originating device in the
registry, or `none` for the core stream (`dev == NULL`). -/
structure Event where
  is_press : Bool
  button : Nat
  dev : Option Nat
  core : Bool
  t : Nat
deriving DecidableEq, Repr

/-- `Event::combine(ev)`: sequential early-return comparisons followed by
the two merge branches; `some` is the mutated receiver on success, `none`
is `return false`. -/
def Event.combine (e ev : Event) : Option Event :=
  if e.is_press ≠ ev.is_press then none
  else if e.button ≠ ev.button then none
  else if e.t ≠ ev.t then none
  else if e.core = true ∧ e.dev = none ∧ ev.core = false ∧ ev.dev ≠ none then
    some { e with dev := ev.dev }
  else if e.core = false ∧ e.dev ≠ none ∧ ev.core = true ∧ ev.dev = none then
    some { e with core := ev.core }
  else none

/-- Per-device held-button state: device index → `status` set. -/
def DevStatus := Nat → Finset Nat

/-- `Event::handle()`: emits the core replay/fake-input effects, then the
command invocation, then (unless `always_grab`) updates the device's
`status` set and emits the dynamic grab/ungrab effects. -/
def Event.handle (e : Event) (commands : List (Nat × Commands)) (always_grab : Bool)
    (status : DevStatus) : DevStatus × List Effect :=
  let coreEff : List Effect :=
    if e.core = true ∧ e.is_press = true then
      if e.dev ≠ none then
        [Effect.fakeButton e.button false, Effect.allowEvents AllowMode.asyncBoth e.t]
      else
        [Effect.allowEvents AllowMode.replayPointer e.t]
    else []
  match e.dev with
  | none => (status, coreEff)
  | some d =>
    let cmdEff : List Effect :=
      match mapFind e.button commands with
      | some c => [Effect.runCmd (if e.is_press then c.press else c.release)]
      | none => []
    if always_grab then (status, coreEff ++ cmdEff)
    else if e.is_press then
      let grabEff : List Effect := if status d = ∅ then [Effect.grabDevice d] else []
      (fun j => if j = d then insert e.button (status d) else status j,
       coreEff ++ cmdEff ++ grabEff)
    else
      let st' := (status d).erase e.button
      let ungrabEff : List Effect := if st' = ∅ then [Effect.ungrabDevice d] else []
      (fun j => if j = d then st' else status j,
       coreEff ++ cmdEff ++ ungrabEff)

/-- The command-invocation effects of `handle` in isolation: the binding
table lookup and the press/release command choice. -/
def cmdEffOf (e : Event) (commands : List (Nat × Commands)) : List Effect :=
  match mapFind e.button commands with
  | some c => [Effect.runCmd (if e.is_press then c.press else c.release)]
  | none => []

/-- The merge step of `main`: with two buffered events, a successful
`combine` shrinks the queue to the single merged event. -/
def dispatch (e1 e2 : Event) : List Event :=
  match e1.combine e2 with
  | some m => [m]
  | none => [e1, e2]

/-- Handle a list of events in order, threading the device status state
and concatenating the emitted effects. -/
def handleAll (commands : List (Nat × Commands)) (always_grab : Bool)
    (status : DevStatus) : List Event → DevStatus × List Effect
  | [] => (status, [])
  | e :: es =>
    let r := e.handle commands always_grab status
    let rest := handleAll commands always_grab r.1 es
    (rest.1, r.2 ++ rest.2)

/-- Number of command invocations (`system` calls) in an effect list. -/
def cmdCount : List Effect → Nat
  | [] => 0
  | Effect.runCmd _ :: es => cmdCount es + 1
  | _ :: es => cmdCount es

/-- X11 core `ButtonPress` event type. -/
def ButtonPress : Nat := 4

/-- A raw X event as far as classification is concerned. -/
structure RawEvent where
  type : Nat
  button : Nat
  time : Nat
deriving DecidableEq, Repr

/-- The device-scanning loop of `Event::get`, with the running device
index. -/
def findDevEvent (ty btn time : Nat) : Nat → List XiDevice → Option Event
  | _, [] => none
  | i, dv :: rest =>
    if ty = dv.press then some ⟨true, btn, some i, false, time⟩
    else if ty = dv.release then some ⟨false, btn, some i, false, time⟩
    else findDevEvent ty btn time (i + 1) rest

/-- `Event::get()`: classify a raw event as a core press, a device press
or release, or (`none`) the logged-as-unknown case where `get` returns
`false` and the event is dropped before any handler runs. -/
def getEvent (devs : List XiDevice) (ev : RawEvent) : Option Event :=
  if ev.type = ButtonPress then some ⟨true, ev.button, none, true, ev.time⟩
  else findDevEvent ev.type ev.button ev.time 0 devs

/-- The classification phase of the main loop over a batch of raw events:
only events `get` accepts enter the queue. -/
def classify (devs : List XiDevice) (raws : List RawEvent) : List Event :=
  raws.filterMap (getEvent devs)

/-- The device-class grabs issued by `grab_buttons` for one bound button:
one `XGrabDeviceButton` per indexed device whose button count covers the
button. -/
def deviceButtonGrabs (b : Nat) (idevs : List (Nat × XiDevice)) : List Effect :=
  idevs.filterMap fun p =>
    if b ≤ p.2.num_buttons then some (Effect.grabDeviceButton p.1 b) else none

/-- `grab_buttons()`: in always-grab mode first grab every device whole;
then for every bound button issue the synchronous core `XGrabButton`, and
(unless always-grab) the per-device `XGrabDeviceButton`s. -/
def grab_buttons (always_grab : Bool) (commands : List (Nat × Commands))
    (devs : List XiDevice) : List Effect :=
  (if always_grab then (List.range devs.length).map Effect.grabDevice else []) ++
  commands.foldr
    (fun bc acc =>
      (Effect.grabButton bc.1 ::
        if always_grab then [] else deviceButtonGrabs bc.1 devs.enum) ++ acc)
    []

/-- X-server device-grab state derived from an effect list: device index →
whether a device-level grab is outstanding after the effects run. -/
def grabbedAfter (g : Nat → Bool) : List Effect → (Nat → Bool)
  | [] => g
  | Effect.grabDevice d :: es => grabbedAfter (fun j => if j = d then true else g j) es
  | Effect.ungrabDevice d :: es => grabbedAfter (fun j => if j = d then false else g j) es
  | _ :: es => grabbedAfter g es

/-- One full state of the steady-state system: held sets plus outstanding
device grabs. -/
def LoopState := DevStatus × (Nat → Bool)

/-- Run the handler over an event list, tracking both the held sets and
the derived device-grab state. -/
def runLoop (commands : List (Nat × Commands)) (always_grab : Bool) :
    LoopState → List Event → LoopState
  | s, [] => s
  | s, e :: es =>
    let r := e.handle commands always_grab s.1
    runLoop commands always_grab (r.1, grabbedAfter s.2 r.2) es

/-- Initial steady state: all held sets empty, no device-level grab. -/
def initState : LoopState := (fun _ => ∅, fun _ => false)

/-- Whether, after the given handled-event history, the last extended
event observed for button `B` on device index `i` was a press. -/
def pressPending (i B : Nat) (evs : List Event) : Bool :=
  evs.foldl (fun acc e => if e.dev = some i ∧ e.button = B then e.is_press else acc) false

/-! ## Helper lemmas -/

theorem handle_dev_none (e : Event) (c : List (Nat × Commands)) (ag : Bool)
    (st : DevStatus) (h : e.dev = none) :
    e.handle c ag st =
      (st, if e.core = true ∧ e.is_press = true then
        [Effect.allowEvents AllowMode.replayPointer e.t] else []) := by
  unfold Event.handle
  rw [h]
  split_ifs <;> simp_all

theorem handle_dev_some_ag (e : Event) (c : List (Nat × Commands))
    (st : DevStatus) (d : Nat) (h : e.dev = some d) :
    e.handle c true st =
      (st,
       (if e.core = true ∧ e.is_press = true then
          [Effect.fakeButton e.button false, Effect.allowEvents AllowMode.asyncBoth e.t]
        else []) ++ cmdEffOf e c) := by
  unfold Event.handle cmdEffOf
  rw [h]
  split_ifs <;> simp_all

theorem handle_dev_some_press (e : Event) (c : List (Nat × Commands))
    (st : DevStatus) (d : Nat) (h : e.dev = some d) (hp : e.is_press = true) :
    e.handle c false st =
      (fun j => if j = d then insert e.button (st d) else st j,
       (if e.core = true then
          [Effect.fakeButton e.button false, Effect.allowEvents AllowMode.asyncBoth e.t]
        else []) ++ cmdEffOf e c ++
       (if st d = ∅ then [Effect.grabDevice d] else [])) := by
  unfold Event.handle cmdEffOf
  rw [h]
  split_ifs <;> simp_all

theorem handle_dev_some_release (e : Event) (c : List (Nat × Commands))
    (st : DevStatus) (d : Nat) (h : e.dev = some d) (hp : e.is_press = false) :
    e.handle c false st =
      (fun j => if j = d then (st d).erase e.button else st j,
       cmdEffOf e c ++
       (if (st d).erase e.button = ∅ then [Effect.ungrabDevice d] else [])) := by
  unfold Event.handle cmdEffOf
  rw [h]
  split_ifs <;> simp_all

theorem cmdEffOf_no_grabs (e : Event) (c : List (Nat × Commands)) (d : Nat) :
    Effect.grabDevice d ∉ cmdEffOf e c ∧ Effect.ungrabDevice d ∉ cmdEffOf e c := by
  unfold cmdEffOf
  cases mapFind e.button c <;> simp

theorem cmdCount_append (l1 l2 : List Effect) :
    cmdCount (l1 ++ l2) = cmdCount l1 + cmdCount l2 := by
  induction l1 with
  | nil => simp [cmdCount]
  | cons x xs ih => cases x <;> simp [cmdCount, ih] <;> omega

theorem cmdCount_handle (e : Event) (c : List (Nat × Commands)) (ag : Bool)
    (st : DevStatus) : cmdCount (e.handle c ag st).2 ≤ 1 := by
  unfold Event.handle
  cases e.dev with
  | none =>
    split_ifs <;> simp [cmdCount]
  | some d =>
    cases mapFind e.button c <;>
      split_ifs <;> simp_all [cmdCount, cmdCount_append] <;>
      split_ifs <;> simp [cmdCount]

/-! ## Claims about the merge step -/

/-- C1: `combine` merges two buffered classified events iff they agree on
`is_press`, `button` and `t`, and exactly one of them is a core event
with no device while the other is a device event with no core flag, in
either order; a merged pair yields a single dispatched event, whose
handling runs at most one command. -/
theorem combine_merge_iff (e1 e2 : Event) :
    ((e1.combine e2).isSome = true ↔
      (e1.is_press = e2.is_press ∧ e1.button = e2.button ∧ e1.t = e2.t ∧
        ((e1.core = true ∧ e1.dev = none ∧ e2.core = false ∧ e2.dev ≠ none) ∨
         (e2.core = true ∧ e2.dev = none ∧ e1.core = false ∧ e1.dev ≠ none)))) ∧
    (∀ m, e1.combine e2 = some m →
      dispatch e1 e2 = [m] ∧
      ∀ c ag st, cmdCount (handleAll c ag st (dispatch e1 e2)).2 ≤ 1) := by
  constructor
  · unfold Event.combine
    split_ifs <;> simp_all <;> tauto
  · intro m hm
    constructor
    · simp [dispatch, hm]
    · intro c ag st
      simp only [dispatch, hm, handleAll, cmdCount_append]
      have h1 := cmdCount_handle m c ag st
      simp [cmdCount]
      omega

/-- Witness for `combine_merge_iff` at a concrete merging pair. -/
theorem combine_merge_iff_witness :
    ((Event.combine ⟨true, 3, none, true, 7⟩ ⟨true, 3, some 0, false, 7⟩).isSome = true) ∧
    dispatch ⟨true, 3, none, true, 7⟩ ⟨true, 3, some 0, false, 7⟩ =
      [⟨true, 3, some 0, true, 7⟩] ∧
    cmdCount (handleAll [(3, ⟨"p", "r"⟩)] false (fun _ => ∅)
      (dispatch ⟨true, 3, none, true, 7⟩ ⟨true, 3, some 0, false, 7⟩)).2 ≤ 1 := by
  refine ⟨(combine_merge_iff ⟨true, 3, none, true, 7⟩ ⟨true, 3, some 0, false, 7⟩).1.mpr
    (by decide), ?_, ?_⟩
  · exact ((combine_merge_iff _ _).2 ⟨true, 3, some 0, true, 7⟩ (by decide)).1
  · exact ((combine_merge_iff _ _).2 ⟨true, 3, some 0, true, 7⟩ (by decide)).2
      [(3, ⟨"p", "r"⟩)] false (fun _ => ∅)

/-- C2 counterexample: at a concrete merging pair the merged event's
`core` flag IS set — it is not dropped as the claim states. -/
theorem combine_drops_core_cx :
    Event.combine ⟨true, 3, none, true, 7⟩ ⟨true, 3, some 0, false, 7⟩ =
      some ⟨true, 3, some 0, true, 7⟩ ∧
    (Event.combine ⟨true, 3, none, true, 7⟩ ⟨true, 3, some 0, false, 7⟩).map Event.core ≠
      some false := by decide

/-- C2 (amended): a merge carries the device reference, but the `core`
flag of the result is set (true), in both merge orders; the other fields
are those of the receiver. -/
theorem combine_merged_is_core_device_event (e1 e2 m : Event)
    (h : e1.combine e2 = some m) :
    m.core = true ∧ m.dev ≠ none ∧ (m.dev = e1.dev ∨ m.dev = e2.dev) ∧
    m.is_press = e1.is_press ∧ m.button = e1.button ∧ m.t = e1.t := by
  unfold Event.combine at h
  split_ifs at h with h1 h2 h3 h4 h5
  · obtain rfl := Option.some_injective _ h
    refine ⟨h4.1, ?_, Or.inr rfl, rfl, rfl, rfl⟩
    exact h4.2.2.2
  · obtain rfl := Option.some_injective _ h
    refine ⟨h5.2.2.1, ?_, Or.inl rfl, rfl, rfl, rfl⟩
    exact h5.2.1

/-- Witness for `combine_merged_is_core_device_event` at a concrete merging
pair. -/
theorem combine_merged_is_core_device_event_witness :
    (⟨true, 3, some 0, true, 7⟩ : Event).core = true ∧
    (⟨true, 3, some 0, true, 7⟩ : Event).dev ≠ none := by
  have h := combine_merged_is_core_device_event ⟨true, 3, none, true, 7⟩
    ⟨true, 3, some 0, false, 7⟩ ⟨true, 3, some 0, true, 7⟩ (by decide)
  exact ⟨h.1, h.2.1⟩

/-! ## Claims about the handler -/

/-- C3 counterexample: at a concrete merged core press, the fake-input
effect the handler emits carries the pressed flag `false` (a synthesized
release), not `true` as a "replacement press" would. -/
theorem handle_fake_press_cx :
    Effect.fakeButton 3 true ∉
      (Event.handle ⟨true, 3, some 0, true, 5⟩ [] false (fun _ => ∅)).2 ∧
    Effect.fakeButton 3 false ∈
      (Event.handle ⟨true, 3, some 0, true, 5⟩ [] false (fun _ => ∅)).2 := by decide

/-- C3 (amended): for every core press reaching the handler: when it
carries a device (it was merged), the handler first emits a fake button
event for the same button with the pressed flag false (a synthesized
release, not a press) followed by releasing the synchronous hold in
allow-both mode; when it carries no device, the handler emits exactly the
replay-to-pointer release; in both cases an `XAllowEvents` call for the
event's timestamp is emitted, so the core press is never silently
dropped. -/
theorem handle_core_press_paths (e : Event) (c : List (Nat × Commands)) (ag : Bool)
    (st : DevStatus) (hc : e.core = true) (hp : e.is_press = true) :
    (e.dev ≠ none →
      (e.handle c ag st).2.take 2 =
        [Effect.fakeButton e.button false, Effect.allowEvents AllowMode.asyncBoth e.t]) ∧
    (e.dev = none →
      (e.handle c ag st).2 = [Effect.allowEvents AllowMode.replayPointer e.t]) ∧
    (∃ mode, Effect.allowEvents mode e.t ∈ (e.handle c ag st).2) := by
  cases hd : e.dev with
  | none =>
    rw [handle_dev_none e c ag st hd]
    simp [hc, hp]
  | some d =>
    refine ⟨fun _ => ?_, fun h => by simp [hd] at h, ⟨AllowMode.asyncBoth, ?_⟩⟩ <;>
      cases ag
    · rw [handle_dev_some_press e c st d hd hp]
      simp [hc]
    · rw [handle_dev_some_ag e c st d hd]
      simp [hc, hp]
    · rw [handle_dev_some_press e c st d hd hp]
      simp [hc]
    · rw [handle_dev_some_ag e c st d hd]
      simp [hc, hp]

/-- Witness for `handle_core_press_paths` at a concrete merged core
press. -/
theorem handle_core_press_paths_witness :
    (Event.handle ⟨true, 3, some 0, true, 5⟩ [] false (fun _ => ∅)).2.take 2 =
      [Effect.fakeButton 3 false, Effect.allowEvents AllowMode.asyncBoth 5] ∧
    (Event.handle ⟨true, 3, none, true, 5⟩ [] false (fun _ => ∅)).2 =
      [Effect.allowEvents AllowMode.replayPointer 5] := by
  refine ⟨(handle_core_press_paths ⟨true, 3, some 0, true, 5⟩ [] false (fun _ => ∅)
      rfl rfl).1 (by decide), ?_⟩
  exact (handle_core_press_paths ⟨true, 3, none, true, 5⟩ [] false (fun _ => ∅)
      rfl rfl).2.1 rfl

/-- C4: with always-grab off, a press of button `B` on device `d` grabs
the device when its held set was empty and inserts `B`; the following
release of `B` removes it and ungrabs the device when the held set
empties; a press/release cycle with no intervening press on `d` leaves
`B` out of the held set and, when `B` was the only held button, ungrabs
the device exactly once. -/
theorem handle_press_release_cycle (c : List (Nat × Commands)) (st : DevStatus)
    (e1 e2 : Event) (d B : Nat)
    (h1p : e1.is_press = true) (h1d : e1.dev = some d) (h1b : e1.button = B)
    (h2p : e2.is_press = false) (h2d : e2.dev = some d) (h2b : e2.button = B) :
    (st d = ∅ → Effect.grabDevice d ∈ (e1.handle c false st).2) ∧
    (e1.handle c false st).1 d = insert B (st d) ∧
    (e2.handle c false (e1.handle c false st).1).1 d =
      ((e1.handle c false st).1 d).erase B ∧
    (((e1.handle c false st).1 d).erase B = ∅ →
      Effect.ungrabDevice d ∈ (e2.handle c false (e1.handle c false st).1).2) ∧
    B ∉ (e2.handle c false (e1.handle c false st).1).1 d ∧
    (st d ⊆ {B} →
      ((e1.handle c false st).2 ++
        (e2.handle c false (e1.handle c false st).1).2).count
          (Effect.ungrabDevice d) = 1) := by
  have hq1 := handle_dev_some_press e1 c st d h1d h1p
  have hs1 : (e1.handle c false st).1 d = insert B (st d) := by
    rw [hq1]
    simp [h1b]
  have hq2 := handle_dev_some_release e2 c (e1.handle c false st).1 d h2d h2p
  have hs2 : (e2.handle c false (e1.handle c false st).1).1 d =
      ((e1.handle c false st).1 d).erase B := by
    rw [hq2]
    simp [h2b]
  refine ⟨?_, hs1, hs2, ?_, ?_, ?_⟩
  · intro hempty
    rw [hq1]
    simp [hempty]
  · intro hempty
    rw [hq2]
    simp [h2b, hempty]
  · rw [hs2, hs1]
    simp
  · intro hsub
    have he1 : ((e1.handle c false st).1 d).erase B = ∅ := by
      rw [hs1]
      have hBs : insert B (st d) = {B} := by
        apply Finset.Subset.antisymm
        · exact Finset.insert_subset_iff.mpr ⟨Finset.mem_singleton_self B, hsub⟩
        · exact Finset.singleton_subset_iff.mpr (Finset.mem_insert_self B (st d))
      rw [hBs]
      simp
    rw [List.count_append]
    have hcnt1 : ((e1.handle c false st).2).count (Effect.ungrabDevice d) = 0 := by
      rw [hq1]
      rw [List.count_eq_zero]
      have hcmd := (cmdEffOf_no_grabs e1 c d).2
      split_ifs <;> simp_all
    have hcnt2 : ((e2.handle c false (e1.handle c false st).1).2).count
        (Effect.ungrabDevice d) = 1 := by
      rw [hq2]
      rw [h2b, he1, List.count_append]
      have hcmd := (cmdEffOf_no_grabs e2 c d).2
      rw [List.count_eq_zero.mpr hcmd]
      simp
    rw [hcnt1, hcnt2]

/-- Witness for `handle_press_release_cycle`: a press/release cycle of
button 3 on device 0 from the empty state. -/
theorem handle_press_release_cycle_witness :
    Effect.grabDevice 0 ∈
      (Event.handle ⟨true, 3, some 0, false, 5⟩ [] false (fun _ => ∅)).2 ∧
    3 ∉ (Event.handle ⟨false, 3, some 0, false, 6⟩ [] false
      (Event.handle ⟨true, 3, some 0, false, 5⟩ [] false (fun _ => ∅)).1).1 0 ∧
    ((Event.handle ⟨true, 3, some 0, false, 5⟩ [] false (fun _ => ∅)).2 ++
      (Event.handle ⟨false, 3, some 0, false, 6⟩ [] false
        (Event.handle ⟨true, 3, some 0, false, 5⟩ [] false (fun _ => ∅)).1).2).count
        (Effect.ungrabDevice 0) = 1 := by
  have h := handle_press_release_cycle [] (fun _ => ∅)
    ⟨true, 3, some 0, false, 5⟩ ⟨false, 3, some 0, false, 6⟩ 0 3
    rfl rfl rfl rfl rfl rfl
  exact ⟨h.1 rfl, h.2.2.2.2.1, h.2.2.2.2.2 (by decide)⟩

/-- C9: with always-grab off, an extended release for a button not in the
device's held set leaves every held set unchanged, yet still emits a
device ungrab exactly when the held set is empty after the erase (that
is, when the device had no dynamic grab outstanding at all). -/
theorem unmatched_release_still_ungrabs (c : List (Nat × Commands)) (st : DevStatus)
    (e : Event) (d : Nat) (hp : e.is_press = false) (hd : e.dev = some d)
    (hb : e.button ∉ st d) :
    (∀ j, (e.handle c false st).1 j = st j) ∧
    (Effect.ungrabDevice d ∈ (e.handle c false st).2 ↔ st d = ∅) := by
  have herase : (st d).erase e.button = st d := Finset.erase_eq_of_not_mem hb
  have hq := handle_dev_some_release e c st d hd hp
  constructor
  · intro j
    rw [hq]
    by_cases hj : j = d <;> simp [hj, herase]
  · rw [hq, herase]
    have hcmd := (cmdEffOf_no_grabs e c d).2
    constructor
    · intro hmem
      rcases List.mem_append.mp hmem with hmem | hmem
      · exact absurd hmem hcmd
      · by_contra hne
        simp [hne] at hmem
    · intro hempty
      simp [hempty]

/-- Witness for `unmatched_release_still_ungrabs`: a release of button 3
on device 0 whose held set is empty. -/
theorem unmatched_release_still_ungrabs_witness :
    (∀ j, (Event.handle ⟨false, 3, some 0, false, 9⟩ [] false (fun _ => ∅)).1 j =
      (fun _ => (∅ : Finset Nat)) j) ∧
    Effect.ungrabDevice 0 ∈
      (Event.handle ⟨false, 3, some 0, false, 9⟩ [] false (fun _ => ∅)).2 := by
  have h := unmatched_release_still_ungrabs [] (fun _ => ∅)
    ⟨false, 3, some 0, false, 9⟩ 0 rfl rfl (by decide)
  exact ⟨h.1, h.2.mpr rfl⟩

/-! ## Claims about argument parsing -/

theorem parseLoop_zero_button : ∀ (args : List String) (t : List (Nat × Commands)),
    (0 : Int) ∈ buttonArgs args → parseLoop t args = ParseResult.usage EXIT_FAILURE
  | [], _, h => by simp [buttonArgs] at h
  | [b], _, h => by simp [buttonArgs] at h
  | [b, p], _, h => by simp [buttonArgs] at h
  | b :: p :: r :: rest, t, h => by
    rw [parseLoop]
    by_cases hb : atoi b = 0
    · simp [hb]
    · have hmem : (0 : Int) ∈ buttonArgs rest := by
        rw [buttonArgs] at h
        rcases List.mem_cons.mp h with h0 | h0
        · exact absurd h0.symm hb
        · exact h0
      simp [hb, parseLoop_zero_button rest _ hmem]

theorem mapFind_mapInsert (k b : Nat) (v : Commands) :
    ∀ t : List (Nat × Commands),
    mapFind b (mapInsert k v t) = if k = b then some v else mapFind b t
  | [] => by
    simp [mapInsert, mapFind]
  | (k', v') :: rest => by
    by_cases hk : k' = k
    · subst hk
      by_cases hb : k' = b <;> simp [mapInsert, mapFind, hb]
    · rw [mapInsert, if_neg hk]
      by_cases hb : k' = b
      · subst hb
        have : ¬ k = k' := fun hkk => hk hkk.symm
        simp [mapFind, this]
      · simp [mapFind, hb, mapFind_mapInsert k b v rest]

theorem mem_keys_mapInsert (k a : Nat) (v : Commands) :
    ∀ t : List (Nat × Commands),
    a ∈ (mapInsert k v t).map Prod.fst ↔ a = k ∨ a ∈ t.map Prod.fst
  | [] => by simp [mapInsert]
  | (k', v') :: rest => by
    by_cases hk : k' = k
    · subst hk
      simp [mapInsert]
    · simp only [mapInsert, if_neg hk, List.map_cons, List.mem_cons,
        mem_keys_mapInsert k a v rest]
      tauto

theorem keys_nodup_mapInsert (k : Nat) (v : Commands) :
    ∀ t : List (Nat × Commands),
    (t.map Prod.fst).Nodup → ((mapInsert k v t).map Prod.fst).Nodup
  | [], _ => by simp [mapInsert]
  | (k', v') :: rest, hnd => by
    rw [List.map_cons, List.nodup_cons] at hnd
    by_cases hk : k' = k
    · subst hk
      simpa [mapInsert] using hnd
    · rw [mapInsert, if_neg hk, List.map_cons, List.nodup_cons]
      refine ⟨?_, keys_nodup_mapInsert k v rest hnd.2⟩
      rw [mem_keys_mapInsert]
      rintro (rfl | hmem)
      · exact hk rfl
      · exact hnd.1 hmem

theorem parseLoop_ok : ∀ (args : List String) (t T : List (Nat × Commands)),
    parseLoop t args = ParseResult.ok T →
    (∀ b, mapFind b T =
      match lastLookup b (tripleBindings args) with
      | some w => some w
      | none => mapFind b t) ∧
    ((t.map Prod.fst).Nodup → (T.map Prod.fst).Nodup)
  | [], t, T, h => by
    have h' : ParseResult.ok t = ParseResult.ok T := h
    obtain rfl : t = T := by injection h'
    simp [tripleBindings, lastLookup]
  | [b], t, T, h => by
    have h' : ParseResult.ok t = ParseResult.ok T := h
    obtain rfl : t = T := by injection h'
    simp [tripleBindings, lastLookup]
  | [b, p], t, T, h => by
    have h' : ParseResult.ok t = ParseResult.ok T := h
    obtain rfl : t = T := by injection h'
    simp [tripleBindings, lastLookup]
  | b :: p :: r :: rest, t, T, h => by
    rw [parseLoop] at h
    by_cases hb : atoi b = 0
    · rw [if_pos hb] at h
      exact absurd h (by simp)
    · rw [if_neg hb] at h
      have ih := parseLoop_ok rest (mapInsert (intToUInt (atoi b)) ⟨p, r⟩ t) T h
      refine ⟨fun β => ?_, fun hnd => ih.2 (keys_nodup_mapInsert _ _ t hnd)⟩
      rw [ih.1 β, tripleBindings, lastLookup]
      cases lastLookup β (tripleBindings rest) with
      | some w => simp
      | none =>
        simp only
        rw [mapFind_mapInsert]
        by_cases hkb : intToUInt (atoi b) = β <;> simp [hkb]

/-- C6 counterexample: an empty argument list (malformed count) prints
usage but exits with `EXIT_SUCCESS`, not a failure status as the claim
states. -/
theorem parse_args_malformed_success_cx :
    parse_args ["prog"] = ParseResult.usage EXIT_SUCCESS ∧
    EXIT_SUCCESS ≠ EXIT_FAILURE := by decide

/-- C6 (amended): a malformed argument count (not of the form 1 + 3k with
k ≥ 1, including the empty case) prints usage and exits with SUCCESS
status; with a well-formed count, an argument in button position whose
`atoi` value is 0 (not parsing as a non-zero integer) prints usage and
exits with FAILURE status. -/
theorem parse_args_exit_codes (argv : List String) :
    (argv.length % 3 ≠ 1 ∨ argv.length ≤ 3 →
      parse_args argv = ParseResult.usage EXIT_SUCCESS) ∧
    (argv.length % 3 = 1 → 3 < argv.length → (0 : Int) ∈ buttonArgs argv.tail →
      parse_args argv = ParseResult.usage EXIT_FAILURE) := by
  constructor
  · intro h
    rw [parse_args, if_pos h]
  · intro h1 h2 h3
    rw [parse_args, if_neg (by omega)]
    exact parseLoop_zero_button argv.tail [] h3

/-- Witness for `parse_args_exit_codes`: the empty argument list and a
well-formed count with a non-numeric button argument. -/
theorem parse_args_exit_codes_witness :
    parse_args ["prog"] = ParseResult.usage EXIT_SUCCESS ∧
    parse_args ["prog", "x", "a", "b"] = ParseResult.usage EXIT_FAILURE := by
  refine ⟨(parse_args_exit_codes ["prog"]).1 (by decide), ?_⟩
  exact (parse_args_exit_codes ["prog", "x", "a", "b"]).2 (by decide) (by decide)
    (by decide)

/-- C10: with a well-formed argument count and no zero button argument,
parsing succeeds; the built table maps each button key to the command
pair of the LAST triple with that key (later triples overwrite earlier
ones), and has one entry per distinct button key. -/
theorem parse_args_last_binding_wins (argv : List String)
    (T : List (Nat × Commands)) (h : parse_args argv = ParseResult.ok T) :
    (∀ b, mapFind b T = lastLookup b (tripleBindings argv.tail)) ∧
    (T.map Prod.fst).Nodup := by
  rw [parse_args] at h
  split_ifs at h with hguard
  have hok := parseLoop_ok argv.tail [] T h
  refine ⟨fun b => ?_, hok.2 (by simp)⟩
  rw [hok.1 b]
  cases lastLookup b (tripleBindings argv.tail) <;> simp [mapFind]

/-- Witness for `parse_args_last_binding_wins`: button 3 bound twice; the
table maps it to the second command pair. -/
theorem parse_args_last_binding_wins_witness :
    mapFind 3 [(3, ⟨"c", "d"⟩)] =
      lastLookup 3 (tripleBindings ["3", "a", "b", "3", "c", "d"]) ∧
    ([(3, (⟨"c", "d"⟩ : Commands))].map Prod.fst).Nodup ∧
    mapFind 3 [(3, ⟨"c", "d"⟩)] = some ⟨"c", "d"⟩ := by
  have h := parse_args_last_binding_wins ["prog", "3", "a", "b", "3", "c", "d"]
    [(3, ⟨"c", "d"⟩)] (by decide)
  exact ⟨h.1 3, h.2, by decide⟩

/-! ## Claims about always-grab mode and unknown events -/

theorem handle_ag_no_grab_effects (e : Event) (c : List (Nat × Commands))
    (st : DevStatus) (d : Nat) :
    Effect.grabDevice d ∉ (e.handle c true st).2 ∧
    Effect.ungrabDevice d ∉ (e.handle c true st).2 ∧
    (e.handle c true st).1 = st := by
  cases hd : e.dev with
  | none =>
    rw [handle_dev_none e c true st hd]
    split_ifs <;> simp
  | some i =>
    rw [handle_dev_some_ag e c st i hd]
    have hcmd := cmdEffOf_no_grabs e c d
    split_ifs <;> simp_all

/-- C7 counterexample: a device press handled in always-grab mode leaves
the held set untouched (the early return precedes the insert), so held
mutation is NOT still tracked as the claim states. -/
theorem always_grab_held_unchanged_cx :
    (Event.handle ⟨true, 3, some 0, false, 9⟩ [(3, ⟨"p", "r"⟩)] true
      (fun _ => ∅)).1 0 = ∅ ∧
    3 ∉ (Event.handle ⟨true, 3, some 0, false, 9⟩ [(3, ⟨"p", "r"⟩)] true
      (fun _ => ∅)).1 0 := by decide

/-- C7 (amended): in always-grab mode every discovered device is grabbed
exactly once by the startup grab phase, and for every event handled while
always-grab is set, `handle` emits no device grab or ungrab call and
leaves every device's held set unchanged (its early return precedes the
held-set update). -/
theorem always_grab_mode (c : List (Nat × Commands)) (devs : List XiDevice)
    (e : Event) (st : DevStatus) (i : Nat) (h : i < devs.length) :
    (grab_buttons true c devs).count (Effect.grabDevice i) = 1 ∧
    (∀ d, Effect.grabDevice d ∉ (e.handle c true st).2 ∧
          Effect.ungrabDevice d ∉ (e.handle c true st).2) ∧
    (e.handle c true st).1 = st := by
  refine ⟨?_, fun d => ⟨(handle_ag_no_grab_effects e c st d).1,
    (handle_ag_no_grab_effects e c st d).2.1⟩,
    (handle_ag_no_grab_effects e c st i).2.2⟩
  rw [grab_buttons, if_pos rfl, List.count_append]
  have h1 : ((List.range devs.length).map Effect.grabDevice).count
      (Effect.grabDevice i) = 1 := by
    apply List.count_eq_one_of_mem
    · exact (List.nodup_range devs.length).map
        (fun a b hab => by injection hab)
    · exact List.mem_map.mpr ⟨i, List.mem_range.mpr h, rfl⟩
  have h2 : ∀ cs : List (Nat × Commands),
      (cs.foldr (fun bc acc =>
        (Effect.grabButton bc.1 ::
          if true = true then [] else deviceButtonGrabs bc.1 devs.enum) ++ acc)
        []).count (Effect.grabDevice i) = 0 := by
    intro cs
    induction cs with
    | nil => simp
    | cons hd tl ih =>
      simp [List.count_cons] at ih ⊢
      exact ih
  rw [h1, h2]

/-- Witness for `always_grab_mode`: one bound button, one device. -/
theorem always_grab_mode_witness :
    (grab_buttons true [(3, ⟨"p", "r"⟩)] [⟨100, 101, 5⟩]).count
      (Effect.grabDevice 0) = 1 ∧
    Effect.grabDevice 0 ∉
      (Event.handle ⟨true, 3, some 0, false, 9⟩ [(3, ⟨"p", "r"⟩)] true
        (fun _ => ∅)).2 ∧
    (Event.handle ⟨true, 3, some 0, false, 9⟩ [(3, ⟨"p", "r"⟩)] true
      (fun _ => ∅)).1 = (fun _ => ∅) := by
  have h := always_grab_mode [(3, ⟨"p", "r"⟩)] [⟨100, 101, 5⟩]
    ⟨true, 3, some 0, false, 9⟩ (fun _ => ∅) 0 (by decide)
  exact ⟨h.1, (h.2.1 0).1, h.2.2⟩

theorem findDevEvent_none (ty btn tm : Nat) :
    ∀ (devs : List XiDevice) (i : Nat),
    (∀ dv ∈ devs, ty ≠ dv.press ∧ ty ≠ dv.release) →
    findDevEvent ty btn tm i devs = none
  | [], _, _ => rfl
  | dv :: rest, i, h => by
    have hdv := h dv (List.mem_cons_self dv rest)
    rw [findDevEvent, if_neg hdv.1, if_neg hdv.2]
    exact findDevEvent_none ty btn tm rest (i + 1)
      (fun x hx => h x (List.mem_cons_of_mem dv hx))

/-- C8: a raw event whose type matches neither the core `ButtonPress`
type nor any registered device's press/release class is classified as
unknown (`get` returns false): it never enters the queue, so handling the
(empty) classified batch leaves the state unchanged and invokes no
command. -/
theorem unknown_event_dropped (devs : List XiDevice) (raw : RawEvent)
    (c : List (Nat × Commands)) (ag : Bool) (st : DevStatus)
    (hcore : raw.type ≠ ButtonPress)
    (hdev : ∀ dv ∈ devs, raw.type ≠ dv.press ∧ raw.type ≠ dv.release) :
    getEvent devs raw = none ∧
    classify devs [raw] = [] ∧
    handleAll c ag st (classify devs [raw]) = (st, []) ∧
    cmdCount (handleAll c ag st (classify devs [raw])).2 = 0 := by
  have hget : getEvent devs raw = none := by
    rw [getEvent, if_neg hcore]
    exact findDevEvent_none raw.type raw.button raw.time devs 0 hdev
  have hcl : classify devs [raw] = [] := by
    simp [classify, hget]
  refine ⟨hget, hcl, ?_, ?_⟩ <;> rw [hcl] <;> simp [handleAll, cmdCount]

/-- Witness for `unknown_event_dropped`: event type 55 against one device
with classes 100/101. -/
theorem unknown_event_dropped_witness :
    getEvent [⟨100, 101, 5⟩] ⟨55, 3, 9⟩ = none ∧
    classify [⟨100, 101, 5⟩] [⟨55, 3, 9⟩] = [] := by
  have h := unknown_event_dropped [⟨100, 101, 5⟩] ⟨55, 3, 9⟩ [] false
    (fun _ => ∅) (by decide) (by decide)
  exact ⟨h.1, h.2.1⟩

/-! ## The steady-state invariant -/

theorem grabbedAfter_append (l1 l2 : List Effect) :
    ∀ g : Nat → Bool, grabbedAfter g (l1 ++ l2) = grabbedAfter (grabbedAfter g l1) l2 := by
  induction l1 with
  | nil => intro g; rfl
  | cons x xs ih =>
    intro g
    cases x <;> simp only [List.cons_append, grabbedAfter] <;> exact ih _

theorem grabbedAfter_cmdEffOf (g : Nat → Bool) (e : Event) (c : List (Nat × Commands)) :
    grabbedAfter g (cmdEffOf e c) = g := by
  unfold cmdEffOf
  cases mapFind e.button c <;> rfl

theorem grabbedAfter_handle_none (e : Event) (c : List (Nat × Commands)) (ag : Bool)
    (st : DevStatus) (g : Nat → Bool) (h : e.dev = none) :
    grabbedAfter g (e.handle c ag st).2 = g := by
  rw [handle_dev_none e c ag st h]
  split_ifs <;> rfl

theorem grabbedAfter_handle_press (e : Event) (c : List (Nat × Commands))
    (st : DevStatus) (g : Nat → Bool) (d : Nat)
    (h : e.dev = some d) (hp : e.is_press = true) :
    grabbedAfter g (e.handle c false st).2 =
      if st d = ∅ then (fun j => if j = d then true else g j) else g := by
  rw [handle_dev_some_press e c st d h hp]
  simp only [grabbedAfter_append]
  have h1 : grabbedAfter g
      (if e.core = true then
        [Effect.fakeButton e.button false, Effect.allowEvents AllowMode.asyncBoth e.t]
       else []) = g := by
    split_ifs <;> rfl
  rw [h1, grabbedAfter_cmdEffOf]
  split_ifs <;> rfl

theorem grabbedAfter_handle_release (e : Event) (c : List (Nat × Commands))
    (st : DevStatus) (g : Nat → Bool) (d : Nat)
    (h : e.dev = some d) (hp : e.is_press = false) :
    grabbedAfter g (e.handle c false st).2 =
      if (st d).erase e.button = ∅ then (fun j => if j = d then false else g j)
      else g := by
  rw [handle_dev_some_release e c st d h hp]
  simp only [grabbedAfter_append, grabbedAfter_cmdEffOf]
  split_ifs <;> rfl

theorem pressPending_append (i B : Nat) (pre : List Event) (e : Event) :
    pressPending i B (pre ++ [e]) =
      if e.dev = some i ∧ e.button = B then e.is_press else pressPending i B pre := by
  simp [pressPending, List.foldl_append]

theorem runLoop_inv_aux (c : List (Nat × Commands)) :
    ∀ (evs : List Event) (st : DevStatus) (g : Nat → Bool) (pre : List Event),
    (∀ i B, B ∈ st i → pressPending i B pre = true) →
    (∀ i, g i = true ↔ st i ≠ ∅) →
    (∀ i B, B ∈ (runLoop c false (st, g) evs).1 i →
      pressPending i B (pre ++ evs) = true) ∧
    (∀ i, (runLoop c false (st, g) evs).2 i = true ↔
      (runLoop c false (st, g) evs).1 i ≠ ∅)
  | [], st, g, pre, hheld, hgrab => by
    rw [runLoop]
    simpa using ⟨hheld, hgrab⟩
  | e :: es, st, g, pre, hheld, hgrab => by
    rw [runLoop]
    have hheld' : ∀ i B, B ∈ (e.handle c false st).1 i →
        pressPending i B (pre ++ [e]) = true := by
      intro i B hB
      rw [pressPending_append]
      cases hd : e.dev with
      | none =>
        rw [handle_dev_none e c false st hd] at hB
        rw [if_neg (by simp [hd])]
        exact hheld i B hB
      | some d =>
        cases hp : e.is_press with
        | true =>
          rw [handle_dev_some_press e c st d hd hp] at hB
          by_cases hi : i = d
          · subst hi
            simp only [if_pos rfl] at hB
            rcases Finset.mem_insert.mp hB with rfl | hBmem
            · rw [if_pos ⟨rfl, rfl⟩]
            · by_cases hbtn : e.button = B
              · rw [if_pos ⟨rfl, hbtn⟩]
              · rw [if_neg (fun hcc => hbtn hcc.2)]
                exact hheld i B hBmem
          · simp only [if_neg hi] at hB
            rw [if_neg (fun hcc =>
              hi (Option.some_injective _ hcc.1).symm)]
            exact hheld i B hB
        | false =>
          rw [handle_dev_some_release e c st d hd hp] at hB
          by_cases hi : i = d
          · subst hi
            simp only [if_pos rfl] at hB
            have hBmem := Finset.mem_of_mem_erase hB
            have hbtn : B ≠ e.button := Finset.ne_of_mem_erase hB
            rw [if_neg (fun hcc => hbtn hcc.2.symm)]
            exact hheld i B hBmem
          · simp only [if_neg hi] at hB
            rw [if_neg (fun hcc =>
              hi (Option.some_injective _ hcc.1).symm)]
            exact hheld i B hB
    have hgrab' : ∀ i, grabbedAfter g (e.handle c false st).2 i = true ↔
        (e.handle c false st).1 i ≠ ∅ := by
      intro i
      cases hd : e.dev with
      | none =>
        rw [grabbedAfter_handle_none e c false st g hd,
          handle_dev_none e c false st hd]
        exact hgrab i
      | some d =>
        cases hp : e.is_press with
        | true =>
          rw [grabbedAfter_handle_press e c st g d hd hp,
            handle_dev_some_press e c st d hd hp]
          by_cases hi : i = d
          · subst hi
            by_cases hempty : st i = ∅ <;> simp only [hempty, if_pos rfl, if_neg,
              reduceIte] <;> simp [hempty, hgrab i]
          · by_cases hempty : st d = ∅ <;> simp [hempty, hi, hgrab i]
        | false =>
          rw [grabbedAfter_handle_release e c st g d hd hp,
            handle_dev_some_release e c st d hd hp]
          by_cases hi : i = d
          · subst hi
            by_cases hempty : (st i).erase e.button = ∅
            · simp [hempty, hgrab i]
            · simp only [hempty, if_neg, reduceIte]
              simp only [hgrab i]
              constructor
              · intro _
                exact fun hcc => hempty (by simp [hcc])
              · intro _
                exact fun hcc => hempty (by simp [hcc])
          · by_cases hempty : (st d).erase e.button = ∅ <;>
              simp [hempty, hi, hgrab i]
    have ih := runLoop_inv_aux c es (e.handle c false st).1
      (grabbedAfter g (e.handle c false st).2) (pre ++ [e]) hheld' hgrab'
    rw [List.append_assoc, List.singleton_append] at ih
    exact ih

/-- C5: with always-grab off, every state the event loop reaches from the
initial state (all held sets empty, no device grab) satisfies: a device's
held set contains only buttons whose last observed matching extended
event was a press (a press with no release since), and a device-level
grab is outstanding for a device iff its held set is non-empty. -/
theorem runLoop_invariant (c : List (Nat × Commands)) (evs : List Event) :
    (∀ i B, B ∈ (runLoop c false initState evs).1 i →
      pressPending i B evs = true) ∧
    (∀ i, (runLoop c false initState evs).2 i = true ↔
      (runLoop c false initState evs).1 i ≠ ∅) := by
  have h := runLoop_inv_aux c evs (fun _ => ∅) (fun _ => false) []
    (by intro i B hB; simp at hB) (by intro i; simp)
  simpa [initState] using h

/-- Witness for `runLoop_invariant`: after a single device press of
button 3, the held set of device 0 contains 3, the press is pending, and
the device is grabbed. -/
theorem runLoop_invariant_witness :
    pressPending 0 3 [⟨true, 3, some 0, false, 5⟩] = true ∧
    (runLoop [] false initState [⟨true, 3, some 0, false, 5⟩]).2 0 = true := by
  have h := runLoop_invariant [] [⟨true, 3, some 0, false, 5⟩]
  refine ⟨h.1 0 3 (by decide), (h.2 0).mpr (by decide)⟩

end BindButton
